import Mathlib

/-!
Verification development for the `Snider/config` configuration-persistence
service (Go).  The definitions below are a shallow embedding of the source
files `pkg/config/formats.go` and `pkg/config/config.go`:

* pure Go functions become Lean functions;
* file I/O becomes explicit state passing over a small file-system model;
* machine integers are modelled by `Int` (the numeric scope of the model is
  whole numbers: `float64` values that are whole numbers of magnitude at most
  `2 ^ 53` are represented exactly, which is the region where Go's
  `encoding/json`, `yaml.v2` and `fmt` round numbers losslessly);
* fallible Go code returns `Except String`.

External libraries used by the source (`encoding/json`, `yaml.v2`,
`gopkg.in/ini.v1`, `encoding/xml`, `fmt`) are modelled at the level of the
documents they produce, following their documented behaviour on the data this
repository feeds them.
-/

namespace Config

open List

/-- Model of the dynamically typed Go values (`interface{}`) stored in a
key-value mapping handed to the format adapters.  Scope of the model:
string, boolean, integer and whole-valued `float64` scalars.
`vFloat n` stands for the `float64` whose value is the whole number `n`. -/
inductive GoValue where
  | vString (s : String)
  | vInt (n : Int)
  | vBool (b : Bool)
  | vFloat (n : Int)
  deriving DecidableEq

/-- The region where the model is exact: a `float64` can represent every
whole number of magnitude at most `2 ^ 53`, and Go prints such a float in
plain decimal (`fmt` uses scientific notation only from `1e21` upward). -/
def GoValue.float64Exact : GoValue → Prop
  | .vInt n => n.natAbs ≤ 2 ^ 53
  | .vFloat n => n.natAbs ≤ 2 ^ 53
  | _ => True

instance (v : GoValue) : Decidable v.float64Exact := by
  cases v <;> simp [GoValue.float64Exact] <;> infer_instance

/-- Model of `fmt.Sprintf("%v", value)` on the values in scope: strings print
as themselves, ints and whole floats in decimal, booleans as `true`/`false`. -/
def goSprintV : GoValue → String
  | .vString s => s
  | .vInt n => toString n
  | .vBool b => cond b "true" "false"
  | .vFloat n => toString n

/-- Model of the Go per-character ASCII lowering used by `strings.ToLower`
(scope of the model: ASCII file names and keys). -/
def goToLower (s : String) : String := String.mk (s.toList.map Char.toLower)

/-- Model of `strings.EqualFold` (ASCII scope): case-insensitive equality. -/
def goEqualFold (a b : String) : Bool := goToLower a = goToLower b

/-- Model of `filepath.Join(a, b)` for already-clean, nonempty components. -/
def goPathJoin (a b : String) : String := a ++ "/" ++ b

/-! ## JSON adapter (`JSONFormat`, formats.go lines 25-51)

`Save` marshals the map as a JSON object; `Load` unmarshals a JSON object
into `map[string]interface{}`.  A JSON document is modelled as the
association list of its members; `encoding/json` decodes every JSON number
into a `float64` when the target is `interface{}`. -/

/-- A scalar member value of a JSON object document.  `jNumber n` is a JSON
number literal denoting the whole number `n` (model scope). -/
inductive JsonValue where
  | jString (s : String)
  | jNumber (n : Int)
  | jBool (b : Bool)
  deriving DecidableEq

/-- How `json.Marshal` encodes one Go scalar: ints and floats both become
JSON number literals. -/
def jsonMarshalValue : GoValue → JsonValue
  | .vString s => .jString s
  | .vInt n => .jNumber n
  | .vBool b => .jBool b
  | .vFloat n => .jNumber n

/-- How `json.Unmarshal` decodes one JSON scalar into `interface{}`: every
number becomes a `float64`. -/
def jsonDecodeValue : JsonValue → GoValue
  | .jString s => .vString s
  | .jNumber n => .vFloat n
  | .jBool b => .vBool b

/-- `JSONFormat.Save`: encode the mapping as a JSON object document. -/
def jsonSave (m : List (String × GoValue)) : List (String × JsonValue) :=
  m.map (fun kv => (kv.1, jsonMarshalValue kv.2))

/-- `JSONFormat.Load`: decode a JSON object document into an untyped map. -/
def jsonLoad (d : List (String × JsonValue)) : List (String × GoValue) :=
  d.map (fun kv => (kv.1, jsonDecodeValue kv.2))

/-! ## YAML adapter (`YAMLFormat`, formats.go lines 53-78)

`yaml.v2` emits a whole-valued `float64` as a bare integer literal
(`strconv.FormatFloat(f, 'g', -1, 64)` gives `"2"` for `2.0`), and decodes an
integer literal into a native `int`. -/

/-- A scalar node of a YAML mapping document. -/
inductive YamlValue where
  | yString (s : String)
  | yInt (n : Int)
  | yBool (b : Bool)
  deriving DecidableEq

/-- How `yaml.Marshal` encodes one Go scalar: a whole-valued float is
emitted as a bare integer literal. -/
def yamlMarshalValue : GoValue → YamlValue
  | .vString s => .yString s
  | .vInt n => .yInt n
  | .vBool b => .yBool b
  | .vFloat n => .yInt n

/-- How `yaml.Unmarshal` decodes one YAML scalar into `interface{}`:
integer literals become native ints. -/
def yamlDecodeValue : YamlValue → GoValue
  | .yString s => .vString s
  | .yInt n => .vInt n
  | .yBool b => .vBool b

/-- `YAMLFormat.Save`: encode the mapping as a YAML mapping document. -/
def yamlSave (m : List (String × GoValue)) : List (String × YamlValue) :=
  m.map (fun kv => (kv.1, yamlMarshalValue kv.2))

/-- `YAMLFormat.Load`: decode a YAML mapping document into an untyped map. -/
def yamlLoad (d : List (String × YamlValue)) : List (String × GoValue) :=
  d.map (fun kv => (kv.1, yamlDecodeValue kv.2))

/-! ## XML adapter (`XMLFormat`, formats.go lines 120-170)

The document is a sequence of `{key, value}` entries with both components
stringified on save; every loaded value is a string. -/

/-- `XMLFormat.Save`: the entry sequence written under the root element,
in iteration order, values stringified with `fmt.Sprintf("%v", ...)`. -/
def xmlSave (m : List (String × GoValue)) : List (String × String) :=
  m.map (fun kv => (kv.1, goSprintV kv.2))

/-- `XMLFormat.Load`: each parsed entry contributes its key and its value
as a string. -/
def xmlLoad (d : List (String × String)) : List (String × GoValue) :=
  d.map (fun kv => (kv.1, GoValue.vString kv.2))

/-! ## INI adapter (`INIFormat`, formats.go lines 80-118)

An INI file is modelled as its list of sections in order, each section its
list of keys in order.  `ini.Empty()` starts with the (empty) `DEFAULT`
section; `ini.File.Section("")` returns the `DEFAULT` section;
`Section.NewKey` rejects an empty key name and overwrites the value of an
existing key. -/

/-- An in-memory `ini.File`: sections in creation order, keys in creation
order.  The `DEFAULT` section is always first. -/
abbrev IniFile := List (String × List (String × String))

/-- `ini.Empty()`: a file holding only the empty default section. -/
def iniEmpty : IniFile := [("DEFAULT", [])]

/-- `Section.NewKey` on the key list of one section: overwrite the value of
an existing key, otherwise append the key. -/
def iniUpsertKey (ks : List (String × String)) (k v : String) : List (String × String) :=
  match ks with
  | [] => [(k, v)]
  | (k', v') :: rest =>
    if k' = k then (k, v) :: rest else (k', v') :: iniUpsertKey rest k v

/-- `cfg.Section(sec).NewKey(k, v)`: find or append the section, then upsert
the key inside it. -/
def iniAddKey (f : IniFile) (sec k v : String) : IniFile :=
  match f with
  | [] => [(sec, [(k, v)])]
  | (s, ks) :: rest =>
    if s = sec then (s, iniUpsertKey ks k v) :: rest
    else (s, ks) :: iniAddKey rest sec k v

/-- Model of `strings.SplitN(k, ".", 2)`: one part when `k` has no dot,
otherwise the part before the first dot and the remainder. -/
def splitN2Dot (k : String) : List String :=
  let cs := k.toList
  match cs.findIdx? (fun c => c = '.') with
  | none => [k]
  | some i => [String.mk (cs.take i), String.mk (cs.drop (i + 1))]

/-- The `(section, key)` pair `INIFormat.Save` derives from one map key:
`parts := SplitN(key, ".", 2)`; with two parts the section is `parts[0]`
and the key `parts[1]`, otherwise the section is `ini.DefaultSection` and
the key is the whole map key.  `ini.File.Section("")` is the `DEFAULT`
section. -/
def iniPairOf (k : String) : String × String :=
  match splitN2Dot k with
  | [a, b] => (if a = "" then "DEFAULT" else a, b)
  | _ => ("DEFAULT", k)

/-- One iteration of the `INIFormat.Save` loop: derive the section and key,
stringify the value with `%v`, and call `NewKey`; `NewKey` fails on an empty
key name. -/
def iniSaveStep (f : IniFile) (kv : String × GoValue) : Except String IniFile :=
  let p := iniPairOf kv.1
  if p.2 = "" then Except.error "empty key name"
  else Except.ok (iniAddKey f p.1 p.2 (goSprintV kv.2))

/-- `INIFormat.Save`: starting from `ini.Empty()`, add every entry under its
derived section and key. -/
def iniSave (m : List (String × GoValue)) : Except String IniFile :=
  m.foldlM iniSaveStep iniEmpty

/-- `INIFormat.Load`: for every section and every key therein, produce the
entry `section.key -> value` (every value a string). -/
def iniLoad (f : IniFile) : List (String × GoValue) :=
  f.flatMap (fun skv => skv.2.map (fun kv => (skv.1 ++ "." ++ kv.1, GoValue.vString kv.2)))

/-! ## Format resolver (`GetConfigFormat`, formats.go lines 183-197) -/

/-- The four format adapters behind the `ConfigFormat` interface. -/
inductive ConfigFormat where
  | json
  | yaml
  | ini
  | xml
  deriving DecidableEq

/-- Model of `filepath.Ext`: scan the path from its end; stop at a path
separator; on the first dot return the suffix from that dot. -/
def goExtAux : List Char → List Char → String
  | [], _ => ""
  | c :: rest, acc =>
    if c = '/' then ""
    else if c = '.' then String.mk (c :: acc)
    else goExtAux rest (c :: acc)

/-- `filepath.Ext(path)`: the suffix beginning at the final dot in the final
slash-separated element of `path`, empty if there is no dot. -/
def goFilepathExt (p : String) : String := goExtAux p.toList.reverse []

/-- `GetConfigFormat` (formats.go): switch on the lower-cased extension of
the path; unknown extensions give the "unsupported config format" error.
The function is pure by construction: it reads no file and no state. -/
def GetConfigFormat (path : String) : Except String ConfigFormat :=
  let ext := goToLower (goFilepathExt path)
  if ext = ".json" then .ok .json
  else if ext = ".yaml" ∨ ext = ".yml" then .ok .yaml
  else if ext = ".ini" then .ok .ini
  else if ext = ".xml" then .ok .xml
  else .error ("unsupported config format: " ++ ext)

/-! ## Round-trip normalizations

The value each adapter's `Load` returns for an entry saved by its `Save`,
and (for INI) the key it returns it under. -/

/-- The value normalization of the JSON round trip: every number comes back
as a `float64`, all other scalars unchanged. -/
def jsonRoundNorm : GoValue → GoValue
  | .vInt n => .vFloat n
  | v => v

/-- The value normalization of the YAML round trip: a whole-valued float is
written without a decimal point and comes back as a native int, all other
scalars unchanged. -/
def yamlRoundNorm : GoValue → GoValue
  | .vFloat n => .vInt n
  | v => v

/-- The key under which the INI round trip restores a map key: the derived
section joined to the derived key with a dot. -/
def iniNormKey (k : String) : String :=
  (iniPairOf k).1 ++ "." ++ (iniPairOf k).2

/-- The INI key normalization exactly as claim C1 states it: a key that
contains no dot is returned under `DEFAULT.` + key, every other key is
returned unchanged.  (Kept verbatim from the claim for comparison with
`iniNormKey`, which is derived from the source.) -/
def claimedIniKey (k : String) : String :=
  if k.toList.contains '.' then k else "DEFAULT." ++ k

lemma jsonDecode_marshal (v : GoValue) :
    jsonDecodeValue (jsonMarshalValue v) = jsonRoundNorm v := by
  cases v <;> rfl

lemma yamlDecode_marshal (v : GoValue) :
    yamlDecodeValue (yamlMarshalValue v) = yamlRoundNorm v := by
  cases v <;> rfl

lemma jsonLoad_jsonSave (m : List (String × GoValue)) :
    jsonLoad (jsonSave m) = m.map (fun kv => (kv.1, jsonRoundNorm kv.2)) := by
  unfold jsonLoad jsonSave
  rw [List.map_map]
  exact List.map_congr_left (fun kv _ => by
    simp [Function.comp_def, jsonDecode_marshal])

lemma yamlLoad_yamlSave (m : List (String × GoValue)) :
    yamlLoad (yamlSave m) = m.map (fun kv => (kv.1, yamlRoundNorm kv.2)) := by
  unfold yamlLoad yamlSave
  rw [List.map_map]
  exact List.map_congr_left (fun kv _ => by
    simp [Function.comp_def, yamlDecode_marshal])

lemma xmlLoad_xmlSave (m : List (String × GoValue)) :
    xmlLoad (xmlSave m) = m.map (fun kv => (kv.1, GoValue.vString (goSprintV kv.2))) := by
  unfold xmlLoad xmlSave
  rw [List.map_map]
  rfl

/-! ## INI round trip, up to permutation

`iniSave` groups the entries by section, so the loaded list is a
permutation of the normalized input (never a reordering within the claim's
reading of "restores m", which compares mappings).  `filePV` flattens an
`IniFile` to its `(section, key) -> value` triples. -/

/-- All `((section, key), value)` triples of an INI file, in file order. -/
def filePV (f : IniFile) : List ((String × String) × String) :=
  f.flatMap (fun skv => skv.2.map (fun kv => ((skv.1, kv.1), kv.2)))

lemma iniLoad_eq_filePV (f : IniFile) :
    iniLoad f
      = (filePV f).map (fun pv => (pv.1.1 ++ "." ++ pv.1.2, GoValue.vString pv.2)) := by
  induction f with
  | nil => rfl
  | cons skv rest ih =>
    simp only [iniLoad, filePV, List.flatMap_cons, List.map_append, List.map_map] at ih ⊢
    rw [ih]
    rfl

lemma iniUpsertKey_of_fresh (ks : List (String × String)) (k v : String)
    (h : ∀ p ∈ ks, p.1 ≠ k) : iniUpsertKey ks k v = ks ++ [(k, v)] := by
  induction ks with
  | nil => rfl
  | cons p rest ih =>
    have hp : p.1 ≠ k := h p (by simp)
    simp only [iniUpsertKey]
    rw [if_neg hp, ih (fun q hq => h q (by simp [hq]))]
    rfl

lemma filePV_addKey (f : IniFile) (sec k v : String)
    (hfresh : (sec, k) ∉ (filePV f).map Prod.fst) :
    filePV (iniAddKey f sec k v) ~ filePV f ++ [((sec, k), v)] := by
  induction f with
  | nil => simp [iniAddKey, filePV]
  | cons skv rest ih =>
    simp only [filePV, List.flatMap_cons, List.map_append, List.map_map] at hfresh
    rw [List.mem_append] at hfresh
    push_neg at hfresh
    obtain ⟨hhead, htail⟩ := hfresh
    by_cases hs : skv.1 = sec
    · have hks : ∀ p ∈ skv.2, p.1 ≠ k := by
        intro p hp hk
        exact hhead (by
          refine List.mem_map.mpr ⟨p, hp, ?_⟩
          simp [Function.comp_def, hs, hk])
      simp only [iniAddKey, if_pos hs, filePV, List.flatMap_cons]
      rw [iniUpsertKey_of_fresh skv.2 k v hks, hs]
      simp only [List.map_append, List.map_cons, List.map_nil]
      calc (skv.2.map fun kv => ((sec, kv.1), kv.2)) ++ [((sec, k), v)]
            ++ rest.flatMap (fun skv => skv.2.map fun kv => ((skv.1, kv.1), kv.2))
          ~ (skv.2.map fun kv => ((sec, kv.1), kv.2))
            ++ ([((sec, k), v)]
              ++ rest.flatMap (fun skv => skv.2.map fun kv => ((skv.1, kv.1), kv.2))) := by
            rw [List.append_assoc]
        _ ~ (skv.2.map fun kv => ((sec, kv.1), kv.2))
            ++ (rest.flatMap (fun skv => skv.2.map fun kv => ((skv.1, kv.1), kv.2))
              ++ [((sec, k), v)]) := by
            exact List.Perm.append_left _ (List.perm_append_comm)
        _ = (skv.2.map fun kv => ((sec, kv.1), kv.2))
            ++ rest.flatMap (fun skv => skv.2.map fun kv => ((skv.1, kv.1), kv.2))
            ++ [((sec, k), v)] := by
            rw [List.append_assoc]
      -- the remaining goal relates the `with section name skv.1` form
    · have htail' : (sec, k) ∉ (filePV rest).map Prod.fst := by
        intro hmem
        simp only [filePV] at hmem
        exact htail (by
          rw [List.map_flatMap] at hmem
          rw [List.map_flatMap]
          simpa [Function.comp_def] using hmem)
      simp only [iniAddKey, if_neg hs, filePV, List.flatMap_cons]
      calc (skv.2.map fun kv => ((skv.1, kv.1), kv.2)) ++ filePV (iniAddKey rest sec k v)
          ~ (skv.2.map fun kv => ((skv.1, kv.1), kv.2)) ++ (filePV rest ++ [((sec, k), v)]) :=
            List.Perm.append_left _ (ih htail')
        _ = (skv.2.map fun kv => ((skv.1, kv.1), kv.2))
            ++ rest.flatMap (fun skv => skv.2.map fun kv => ((skv.1, kv.1), kv.2))
            ++ [((sec, k), v)] := by
            simp [filePV, List.append_assoc]

lemma iniSave_go (m : List (String × GoValue)) (f₀ f : IniFile)
    (hnd : (m.map (fun kv => iniPairOf kv.1)).Nodup)
    (hfresh : ∀ kv ∈ m, iniPairOf kv.1 ∉ (filePV f₀).map Prod.fst)
    (hsave : m.foldlM iniSaveStep f₀ = .ok f) :
    filePV f ~ filePV f₀ ++ m.map (fun kv => (iniPairOf kv.1, goSprintV kv.2)) := by
  induction m generalizing f₀ with
  | nil =>
    simp only [List.foldlM_nil] at hsave
    cases hsave
    simp
  | cons kv rest ih =>
    rw [List.foldlM_cons] at hsave
    by_cases hk : (iniPairOf kv.1).2 = ""
    · have hstep : iniSaveStep f₀ kv = Except.error "empty key name" := by
        simp [iniSaveStep, hk]
      rw [hstep] at hsave
      exact Except.noConfusion
        (show (Except.error "empty key name" : Except String IniFile) = Except.ok f from hsave)
    · have hstep : iniSaveStep f₀ kv
          = Except.ok (iniAddKey f₀ (iniPairOf kv.1).1 (iniPairOf kv.1).2 (goSprintV kv.2)) := by
        simp [iniSaveStep, hk]
      rw [hstep] at hsave
      set f₁ := iniAddKey f₀ (iniPairOf kv.1).1 (iniPairOf kv.1).2 (goSprintV kv.2) with hf₁
      have hsave' : List.foldlM iniSaveStep f₁ rest = Except.ok f := hsave
      have hfreshHead : ((iniPairOf kv.1).1, (iniPairOf kv.1).2) ∉ (filePV f₀).map Prod.fst := by
        simpa using hfresh kv (by simp)
      have hperm₁ : filePV f₁ ~ filePV f₀ ++ [(iniPairOf kv.1, goSprintV kv.2)] := by
        rw [hf₁]
        exact filePV_addKey f₀ _ _ _ hfreshHead
      have hnd' : (rest.map (fun kv => iniPairOf kv.1)).Nodup := (List.nodup_cons.mp hnd).2
      have hne : ∀ q ∈ rest, iniPairOf q.1 ≠ iniPairOf kv.1 := by
        intro q hq he
        apply (List.nodup_cons.mp hnd).1
        show iniPairOf kv.1 ∈ rest.map (fun kv => iniPairOf kv.1)
        rw [← he]
        exact List.mem_map.mpr ⟨q, hq, rfl⟩
      have hfresh' : ∀ q ∈ rest, iniPairOf q.1 ∉ (filePV f₁).map Prod.fst := by
        intro q hq hmem
        have hmem' := (hperm₁.map Prod.fst).mem_iff.mp hmem
        rw [List.map_append] at hmem'
        rcases List.mem_append.mp hmem' with h₁ | h₂
        · exact hfresh q (by simp [hq]) h₁
        · simp only [List.map_cons, List.map_nil, List.mem_singleton] at h₂
          exact hne q hq h₂
      have hmain := ih f₁ hnd' hfresh' hsave'
      calc filePV f
          ~ filePV f₁ ++ rest.map (fun kv => (iniPairOf kv.1, goSprintV kv.2)) := hmain
        _ ~ (filePV f₀ ++ [(iniPairOf kv.1, goSprintV kv.2)])
            ++ rest.map (fun kv => (iniPairOf kv.1, goSprintV kv.2)) :=
            hperm₁.append_right _
        _ = filePV f₀ ++ (kv :: rest).map (fun kv => (iniPairOf kv.1, goSprintV kv.2)) := by
            simp [List.append_assoc]

/-- C1: the amended round-trip law for all four adapters.  `Save` then
`Load` restores the mapping up to each format's normalization: JSON keeps
scalars but returns every number as a float; YAML keeps scalars but returns
a whole-number float as an int; XML returns every value stringified under
its original key; INI returns every value stringified under
`section ++ "." ++ key` where the section is the part before the first dot,
with the `DEFAULT` section substituted both when the key has no dot and
when the part before the first dot is empty (`iniNormKey`).  The INI file
groups entries by section, so its restored mapping is compared as a
permutation, and the derived section/key pairs must be distinct (`hnd`) or
later entries overwrite earlier ones.  `hexact` restricts values to the
region where the model's whole-number arithmetic is exact for `float64`. -/
theorem c1_roundtrip (m : List (String × GoValue)) (f : IniFile)
    (_hexact : ∀ kv ∈ m, GoValue.float64Exact kv.2)
    (hnd : (m.map (fun kv => iniPairOf kv.1)).Nodup)
    (hsave : iniSave m = .ok f) :
    jsonLoad (jsonSave m) = m.map (fun kv => (kv.1, jsonRoundNorm kv.2))
    ∧ yamlLoad (yamlSave m) = m.map (fun kv => (kv.1, yamlRoundNorm kv.2))
    ∧ xmlLoad (xmlSave m) = m.map (fun kv => (kv.1, GoValue.vString (goSprintV kv.2)))
    ∧ iniLoad f ~ m.map (fun kv => (iniNormKey kv.1, GoValue.vString (goSprintV kv.2))) := by
  refine ⟨jsonLoad_jsonSave m, yamlLoad_yamlSave m, xmlLoad_xmlSave m, ?_⟩
  have hgo := iniSave_go m iniEmpty f hnd (by intro kv _; simp [filePV, iniEmpty]) hsave
  rw [iniLoad_eq_filePV]
  calc (filePV f).map (fun pv => (pv.1.1 ++ "." ++ pv.1.2, GoValue.vString pv.2))
      ~ (filePV iniEmpty ++ m.map (fun kv => (iniPairOf kv.1, goSprintV kv.2))).map
          (fun pv => (pv.1.1 ++ "." ++ pv.1.2, GoValue.vString pv.2)) := hgo.map _
    _ = m.map (fun kv => (iniNormKey kv.1, GoValue.vString (goSprintV kv.2))) := by
        simp [filePV, iniEmpty, List.map_map, iniNormKey, Function.comp_def]

/-- C1 witness: a concrete mapping with a dotless key, a sectioned key, a
boolean and a whole float, run through all four adapters. -/
theorem c1_roundtrip_witness :
    jsonLoad (jsonSave [("a", GoValue.vString "x"), ("s.b", GoValue.vInt 2),
        ("c", GoValue.vBool true), ("d", GoValue.vFloat 3)])
      = [("a", GoValue.vString "x"), ("s.b", GoValue.vInt 2),
        ("c", GoValue.vBool true), ("d", GoValue.vFloat 3)].map
          (fun kv => (kv.1, jsonRoundNorm kv.2))
    ∧ yamlLoad (yamlSave [("a", GoValue.vString "x"), ("s.b", GoValue.vInt 2),
        ("c", GoValue.vBool true), ("d", GoValue.vFloat 3)])
      = [("a", GoValue.vString "x"), ("s.b", GoValue.vInt 2),
        ("c", GoValue.vBool true), ("d", GoValue.vFloat 3)].map
          (fun kv => (kv.1, yamlRoundNorm kv.2))
    ∧ xmlLoad (xmlSave [("a", GoValue.vString "x"), ("s.b", GoValue.vInt 2),
        ("c", GoValue.vBool true), ("d", GoValue.vFloat 3)])
      = [("a", GoValue.vString "x"), ("s.b", GoValue.vInt 2),
        ("c", GoValue.vBool true), ("d", GoValue.vFloat 3)].map
          (fun kv => (kv.1, GoValue.vString (goSprintV kv.2)))
    ∧ iniLoad [("DEFAULT", [("a", "x"), ("c", "true"), ("d", "3")]), ("s", [("b", "2")])]
      ~ [("a", GoValue.vString "x"), ("s.b", GoValue.vInt 2),
        ("c", GoValue.vBool true), ("d", GoValue.vFloat 3)].map
          (fun kv => (iniNormKey kv.1, GoValue.vString (goSprintV kv.2))) :=
  c1_roundtrip
    [("a", GoValue.vString "x"), ("s.b", GoValue.vInt 2),
      ("c", GoValue.vBool true), ("d", GoValue.vFloat 3)]
    [("DEFAULT", [("a", "x"), ("c", "true"), ("d", "3")]), ("s", [("b", "2")])]
    (by decide) (by decide) rfl

/-- C1 counterexample: the key `".a"` contains a dot, so the claim's stated
normalization (`claimedIniKey`) leaves it unchanged; but `INIFormat.Save`
derives the empty section from it, `ini.File.Section("")` is the `DEFAULT`
section, and the entry is restored under `"DEFAULT.a"`, not `".a"`. -/
theorem c1_counterexample :
    iniSave [(".a", GoValue.vString "x")] = Except.ok [("DEFAULT", [("a", "x")])]
    ∧ iniLoad [("DEFAULT", [("a", "x")])] = [("DEFAULT.a", GoValue.vString "x")]
    ∧ claimedIniKey ".a" = ".a"
    ∧ ("DEFAULT.a" : String) ≠ ".a" :=
  ⟨rfl, rfl, rfl, by decide⟩

/-! ## Claim C3: the format resolver -/

/-- C3: the resolver is total and pure.  For any path whose lower-cased
extension is `.json` it returns the JSON adapter, `.yaml` or `.yml` the
YAML adapter, `.ini` the INI adapter, `.xml` the XML adapter; every other
extension (including none, where `goFilepathExt` returns `""`) yields the
"unsupported config format" error.  `GetConfigFormat` is a plain function
of the path: it performs no I/O and reads no state. -/
theorem c3_resolver_total (p e : String) (he : e = goToLower (goFilepathExt p)) :
    (e = ".json" → GetConfigFormat p = .ok .json)
    ∧ ((e = ".yaml" ∨ e = ".yml") → GetConfigFormat p = .ok .yaml)
    ∧ (e = ".ini" → GetConfigFormat p = .ok .ini)
    ∧ (e = ".xml" → GetConfigFormat p = .ok .xml)
    ∧ (e ≠ ".json" → e ≠ ".yaml" → e ≠ ".yml" → e ≠ ".ini" → e ≠ ".xml" →
        GetConfigFormat p = .error ("unsupported config format: " ++ e)) := by
  subst he
  simp only [GetConfigFormat]
  refine ⟨fun h => ?_, fun h => ?_, fun h => ?_, fun h => ?_,
    fun h1 h2 h3 h4 h5 => ?_⟩
  · rw [if_pos h]
  · rcases h with h | h <;> simp [h]
  · simp [h]
  · simp [h]
  · simp [h1, h2, h3, h4, h5]

/-- C3 witness: concrete resolutions, exercising case-insensitivity, both
YAML extensions, an unsupported extension, and a name with no extension. -/
theorem c3_resolver_witness :
    GetConfigFormat "settings.JsOn" = .ok .json
    ∧ GetConfigFormat "a/b.YML" = .ok .yaml
    ∧ GetConfigFormat "c.yaml" = .ok .yaml
    ∧ GetConfigFormat "d.Ini" = .ok .ini
    ∧ GetConfigFormat "e.XML" = .ok .xml
    ∧ GetConfigFormat "f.txt" = .error ("unsupported config format: " ++ ".txt")
    ∧ GetConfigFormat "noext" = .error ("unsupported config format: " ++ "") :=
  ⟨(c3_resolver_total "settings.JsOn" ".json" rfl).1 rfl,
   (c3_resolver_total "a/b.YML" ".yml" rfl).2.1 (Or.inr rfl),
   (c3_resolver_total "c.yaml" ".yaml" rfl).2.1 (Or.inl rfl),
   (c3_resolver_total "d.Ini" ".ini" rfl).2.2.1 rfl,
   (c3_resolver_total "e.XML" ".xml" rfl).2.2.2.1 rfl,
   (c3_resolver_total "f.txt" ".txt" rfl).2.2.2.2
     (by decide) (by decide) (by decide) (by decide) (by decide),
   (c3_resolver_total "noext" "" rfl).2.2.2.2
     (by decide) (by decide) (by decide) (by decide) (by decide)⟩

/-! ## The Settings Store (`Service`, config.go)

The `Service` struct's persistent fields (config.go lines 66-80).  The
embedded `*core.ServiceRuntime[Options]` field carries the json tag `"-"`
and is skipped by the tag check in `Get` and `Set` (`jsonTag != "-"`), so it
does not appear in the field table below. -/

/-- The persistent fields of the `Service` struct, in declaration order. -/
structure Service where
  configPath : String
  userHomeDir : String
  rootDir : String
  cacheDir : String
  configDir : String
  dataDir : String
  workspaceDir : String
  defaultRoute : String
  features : List String
  language : String
  deriving DecidableEq

/-- The Go types a `Service` field can have: `string` or `[]string`. -/
inductive SettingsType where
  | str
  | strList
  deriving DecidableEq

/-- The Go spelling of a field type, used in error messages. -/
def SettingsType.goName : SettingsType → String
  | .str => "string"
  | .strList => "[]string"

/-- A dynamically typed value crossing the `Get`/`Set` reflection boundary. -/
inductive SettingsValue where
  | str (s : String)
  | strList (l : List String)
  deriving DecidableEq

/-- The runtime type of a `SettingsValue`. -/
def SettingsValue.vtype : SettingsValue → SettingsType
  | .str _ => .str
  | .strList _ => .strList

/-- One struct field as seen by the reflection loop in `Get`/`Set`: its json
tag name, its Go type, its reader, and its writer (which fails exactly when
the incoming value's type is not assignable to the field, modelling
`reflect.Type.AssignableTo`).  All ten fields are exported, so
`reflect.Value.CanSet` always holds and is not modelled. -/
structure FieldSpec where
  jsonName : String
  ty : SettingsType
  get : Service → SettingsValue
  set : Service → SettingsValue → Option Service

/-- The tagged fields of `Service` in declaration order, with the first
comma-separated component of each json tag as the logical key
(config.go lines 70-79). -/
def serviceFields : List FieldSpec :=
  [⟨"configPath", .str, fun s => .str s.configPath,
      fun s v => match v with | .str x => some { s with configPath := x } | _ => none⟩,
   ⟨"userHomeDir", .str, fun s => .str s.userHomeDir,
      fun s v => match v with | .str x => some { s with userHomeDir := x } | _ => none⟩,
   ⟨"rootDir", .str, fun s => .str s.rootDir,
      fun s v => match v with | .str x => some { s with rootDir := x } | _ => none⟩,
   ⟨"cacheDir", .str, fun s => .str s.cacheDir,
      fun s v => match v with | .str x => some { s with cacheDir := x } | _ => none⟩,
   ⟨"configDir", .str, fun s => .str s.configDir,
      fun s v => match v with | .str x => some { s with configDir := x } | _ => none⟩,
   ⟨"dataDir", .str, fun s => .str s.dataDir,
      fun s v => match v with | .str x => some { s with dataDir := x } | _ => none⟩,
   ⟨"workspaceDir", .str, fun s => .str s.workspaceDir,
      fun s v => match v with | .str x => some { s with workspaceDir := x } | _ => none⟩,
   ⟨"default_route", .str, fun s => .str s.defaultRoute,
      fun s v => match v with | .str x => some { s with defaultRoute := x } | _ => none⟩,
   ⟨"features", .strList, fun s => .strList s.features,
      fun s v => match v with | .strList x => some { s with features := x } | _ => none⟩,
   ⟨"language", .str, fun s => .str s.language,
      fun s v => match v with | .str x => some { s with language := x } | _ => none⟩]

/-- The reflection loop shared by `Get` and `Set`: the first tagged field
whose json name matches the key under `strings.EqualFold`. -/
def findField (key : String) : Option FieldSpec :=
  serviceFields.find? (fun f => goEqualFold f.jsonName key)

/-- `Service.Get` (config.go lines 215-242): look the field up by key,
check that the field's type is assignable to the output slot's type, and
copy the value out.  The output slot is modelled by its type (`outType`);
the claims under verification always pass a non-nil pointer, so the nil
check of the source is not modelled. -/
def Service.get (s : Service) (key : String) (outType : SettingsType) :
    Except String SettingsValue :=
  match findField key with
  | some f =>
    if (f.get s).vtype = outType then Except.ok (f.get s)
    else Except.error ("cannot assign config value of type " ++ (f.get s).vtype.goName
      ++ " to output of type " ++ outType.goName)
  | none => Except.error ("key '" ++ key ++ "' not found in config")

/-- The pure stage of `Service.Set` (config.go lines 304-329): field lookup
and type-checked assignment, before any persistence. -/
def Service.setField (s : Service) (key : String) (v : SettingsValue) :
    Except String Service :=
  match findField key with
  | some f =>
    match f.set s v with
    | some s' => Except.ok s'
    | none => Except.error ("type mismatch for key '" ++ key ++ "': expected "
        ++ f.ty.goName ++ ", got " ++ v.vtype.goName)
  | none => Except.error ("key '" ++ key ++ "' not found in config")

/-! ## The JSON documents the Service reads and writes -/

/-- A parsed JSON document (scope: whole-number numerics), used for the
settings file and the auxiliary struct files. -/
inductive DynVal where
  | null
  | str (s : String)
  | num (n : Int)
  | bool (b : Bool)
  | arr (elems : List DynVal)
  | obj (fields : List (String × DynVal))

/-- The members `json.Marshal` emits for one `omitempty` string field:
nothing when the string is empty, one member otherwise. -/
def optStrField (name val : String) : List (String × DynVal) :=
  if val = "" then [] else [(name, DynVal.str val)]

/-- `json.MarshalIndent(s, ...)` on the `Service` struct: members in field
declaration order; the seven path fields carry `omitempty`, the last three
are always present (config.go lines 70-79). -/
def marshalService (s : Service) : DynVal :=
  DynVal.obj
    (optStrField "configPath" s.configPath
      ++ (optStrField "userHomeDir" s.userHomeDir
      ++ (optStrField "rootDir" s.rootDir
      ++ (optStrField "cacheDir" s.cacheDir
      ++ (optStrField "configDir" s.configDir
      ++ (optStrField "dataDir" s.dataDir
      ++ (optStrField "workspaceDir" s.workspaceDir
      ++ [("default_route", DynVal.str s.defaultRoute),
          ("features", DynVal.arr (s.features.map DynVal.str)),
          ("language", DynVal.str s.language)])))))))

/-- Decoding a JSON array into a `[]string` field: every element must be a
string. -/
def strsOfDyn (l : List DynVal) : Except String (List String) :=
  l.mapM (fun v => match v with
    | DynVal.str s => Except.ok s
    | _ => Except.error "json: cannot unmarshal value into Go value of type string")

/-- One member step of `json.Unmarshal` merging a JSON object into an
existing `Service` value: a member whose name equals a field's json tag
overwrites that field (a `null` member is a no-op, a wrongly typed member
is an error), every other member is ignored.  encoding/json also matches
tags case-insensitively as a fallback; the documents this service writes
use the exact tags, so only exact matching is modelled. -/
def serviceDecodeField (s : Service) (k : String) (v : DynVal) : Except String Service :=
  if k = "configPath" then
    match v with
    | DynVal.str x => Except.ok { s with configPath := x }
    | DynVal.null => Except.ok s
    | _ => Except.error "json: cannot unmarshal value into field configPath"
  else if k = "userHomeDir" then
    match v with
    | DynVal.str x => Except.ok { s with userHomeDir := x }
    | DynVal.null => Except.ok s
    | _ => Except.error "json: cannot unmarshal value into field userHomeDir"
  else if k = "rootDir" then
    match v with
    | DynVal.str x => Except.ok { s with rootDir := x }
    | DynVal.null => Except.ok s
    | _ => Except.error "json: cannot unmarshal value into field rootDir"
  else if k = "cacheDir" then
    match v with
    | DynVal.str x => Except.ok { s with cacheDir := x }
    | DynVal.null => Except.ok s
    | _ => Except.error "json: cannot unmarshal value into field cacheDir"
  else if k = "configDir" then
    match v with
    | DynVal.str x => Except.ok { s with configDir := x }
    | DynVal.null => Except.ok s
    | _ => Except.error "json: cannot unmarshal value into field configDir"
  else if k = "dataDir" then
    match v with
    | DynVal.str x => Except.ok { s with dataDir := x }
    | DynVal.null => Except.ok s
    | _ => Except.error "json: cannot unmarshal value into field dataDir"
  else if k = "workspaceDir" then
    match v with
    | DynVal.str x => Except.ok { s with workspaceDir := x }
    | DynVal.null => Except.ok s
    | _ => Except.error "json: cannot unmarshal value into field workspaceDir"
  else if k = "default_route" then
    match v with
    | DynVal.str x => Except.ok { s with defaultRoute := x }
    | DynVal.null => Except.ok s
    | _ => Except.error "json: cannot unmarshal value into field default_route"
  else if k = "features" then
    match v with
    | DynVal.arr l =>
      match strsOfDyn l with
      | Except.ok xs => Except.ok { s with features := xs }
      | Except.error e => Except.error e
    | DynVal.null => Except.ok s
    | _ => Except.error "json: cannot unmarshal value into field features"
  else if k = "language" then
    match v with
    | DynVal.str x => Except.ok { s with language := x }
    | DynVal.null => Except.ok s
    | _ => Except.error "json: cannot unmarshal value into field language"
  else Except.ok s

/-- The member-wise merge of a JSON object into a `Service` value. -/
def decodeFields (fields : List (String × DynVal)) (s : Service) : Except String Service :=
  fields.foldlM (fun acc kv => serviceDecodeField acc kv.1 kv.2) s

/-- `json.Unmarshal(data, s)` for a `*Service` target: a `null` document is
a no-op, an object document merges member-wise into the existing value, and
any other document is a type error. -/
def serviceDecode (v : DynVal) (s : Service) : Except String Service :=
  match v with
  | DynVal.null => Except.ok s
  | DynVal.obj fields => decodeFields fields s
  | _ => Except.error "json: cannot unmarshal value into Go value of type config.Service"

/-! ## The file-system model -/

/-- What a file in the model can hold: nothing readable as JSON (empty or
malformed bytes), a parsed JSON document, or a document of one of the other
key-value formats. -/
inductive FileContent where
  | emptyFile
  | malformed
  | doc (v : DynVal)
  | kvJson (d : List (String × JsonValue))
  | kvYaml (d : List (String × YamlValue))
  | kvIni (f : IniFile)
  | kvXml (d : List (String × String))

/-- Read a file: `none` models `os.IsNotExist`. -/
def fsGet (files : List (String × FileContent)) (p : String) : Option FileContent :=
  match files with
  | [] => none
  | (q, c) :: rest => if q = p then some c else fsGet rest p

/-- Overwrite-or-create semantics of `os.WriteFile`. -/
def fsPut (files : List (String × FileContent)) (p : String) (c : FileContent) :
    List (String × FileContent) :=
  match files with
  | [] => [(p, c)]
  | (q, d) :: rest => if q = p then (p, c) :: rest else (q, d) :: fsPut rest p c

/-- The state the Service's I/O runs against: files, existing directories,
and the set of paths on which a write fails (modelling filesystem write
errors such as permission denial; reads are modelled as succeeding whenever
the file exists). -/
structure Sys where
  files : List (String × FileContent)
  dirs : List String
  writeDenied : List String

/-- `os.WriteFile`: fails on a denied path, otherwise overwrites. -/
def fsWriteFile (sys : Sys) (p : String) (c : FileContent) : Except String Sys :=
  if sys.writeDenied.contains p then Except.error "permission denied"
  else Except.ok { sys with files := fsPut sys.files p c }

/-- `os.MkdirAll`: records the directory; creation of an existing directory
is a no-op.  (Directory-creation failure is outside the model's scope; no
claim under verification exercises it.) -/
def mkdirAll (sys : Sys) (d : String) : Sys :=
  if sys.dirs.contains d then sys else { sys with dirs := sys.dirs ++ [d] }

/-- `Service.Save` (config.go lines 190-200): marshal the whole record —
which cannot fail for this field set of strings and a string list — and
write it to `ConfigPath`, wrapping a write failure. -/
def Service.save (s : Service) (sys : Sys) : Except String Sys :=
  match fsWriteFile sys s.configPath (FileContent.doc (marshalService s)) with
  | Except.ok sys' => Except.ok sys'
  | Except.error e => Except.error ("failed to write config file: " ++ e)

/-- `Service.Set` (config.go lines 304-329) with its persistence step
abstracted: after a successful lookup and assignment the new record is
persisted with `saveFn`; on a persistence failure the error is returned
while the record keeps the mutated value and the state is unchanged.  The
triple returned is (call result, record after the call, state after the
call). -/
def Service.setWith (saveFn : Service → Sys → Except String Sys) (s : Service) (sys : Sys)
    (key : String) (v : SettingsValue) : Except String Unit × Service × Sys :=
  match s.setField key v with
  | Except.error e => (Except.error e, s, sys)
  | Except.ok s' =>
    match saveFn s' sys with
    | Except.ok sys' => (Except.ok (), s', sys')
    | Except.error e => (Except.error e, s', sys)

/-- `Service.Set` proper: the persistence step is `Service.Save`. -/
def Service.set (s : Service) (sys : Sys) (key : String) (v : SettingsValue) :
    Except String Unit × Service × Sys :=
  Service.setWith Service.save s sys key v

/-! ## Struct and key-value persistence -/

/-- The file path `SaveStruct`/`LoadStruct` use for a key:
`filepath.Join(s.ConfigDir, key + ".json")`. -/
def Service.structPath (s : Service) (key : String) : String :=
  goPathJoin s.configDir (key ++ ".json")

/-- The file path `SaveKeyValues`/`LoadKeyValues` use for a key:
`filepath.Join(s.ConfigDir, key)`. -/
def Service.kvPath (s : Service) (key : String) : String :=
  goPathJoin s.configDir key

/-- `json.Unmarshal(data, out)` for an arbitrary target type `α`: empty or
malformed bytes fail, the `null` document succeeds leaving the target
untouched (encoding/json: unmarshaling `null` into a non-pointer value has
no effect), and any other document is decoded by the target type's decoder
`dec`. -/
def jsonUnmarshalWith {α : Type} (dec : DynVal → α → Except String α)
    (c : FileContent) (out : α) : Except String α :=
  match c with
  | FileContent.emptyFile => Except.error "unexpected end of JSON input"
  | FileContent.malformed => Except.error "invalid character"
  | FileContent.doc DynVal.null => Except.ok out
  | FileContent.doc v => dec v out
  | _ => Except.error "invalid character"

/-- `Service.LoadStruct` (config.go lines 282-292): read
`<configDir>/<key>.json`; if the file does not exist return success without
touching the output; otherwise unmarshal the content into the output.
`dec` is the decoder of the caller's target type. -/
def Service.loadStruct {α : Type} (dec : DynVal → α → Except String α)
    (s : Service) (sys : Sys) (key : String) (out : α) : Except String α :=
  match fsGet sys.files (s.structPath key) with
  | none => Except.ok out
  | some c => jsonUnmarshalWith dec c out

/-- `Service.SaveStruct` (config.go lines 260-267): marshal the value with
the caller's type encoder `enc` (which fails on unserializable values, e.g.
a channel), wrap a marshal failure, and write to `<configDir>/<key>.json`. -/
def Service.saveStruct {α : Type} (enc : α → Except String DynVal)
    (s : Service) (sys : Sys) (key : String) (data : α) : Except String Sys :=
  match enc data with
  | Except.error e =>
    Except.error ("failed to marshal struct for key '" ++ key ++ "': " ++ e)
  | Except.ok v => fsWriteFile sys (s.structPath key) (FileContent.doc v)

/-- `Service.SaveKeyValues` (formats.go lines 211-218): resolve the adapter
from the key's extension, then save the mapping at `<configDir>/<key>` in
that adapter's document syntax. -/
def Service.saveKeyValues (s : Service) (sys : Sys) (key : String)
    (m : List (String × GoValue)) : Except String Sys :=
  match GetConfigFormat key with
  | Except.error e => Except.error e
  | Except.ok ConfigFormat.json => fsWriteFile sys (s.kvPath key) (FileContent.kvJson (jsonSave m))
  | Except.ok ConfigFormat.yaml => fsWriteFile sys (s.kvPath key) (FileContent.kvYaml (yamlSave m))
  | Except.ok ConfigFormat.ini =>
    match iniSave m with
    | Except.error e => Except.error e
    | Except.ok f => fsWriteFile sys (s.kvPath key) (FileContent.kvIni f)
  | Except.ok ConfigFormat.xml => fsWriteFile sys (s.kvPath key) (FileContent.kvXml (xmlSave m))

/-- `Service.LoadKeyValues` (formats.go lines 232-239): resolve the adapter
from the key's extension, then load `<configDir>/<key>` with it.  A missing
file or a file whose bytes do not parse in the adapter's syntax is an
error. -/
def Service.loadKeyValues (s : Service) (sys : Sys) (key : String) :
    Except String (List (String × GoValue)) :=
  match GetConfigFormat key with
  | Except.error e => Except.error e
  | Except.ok fmt =>
    match fsGet sys.files (s.kvPath key), fmt with
    | some (FileContent.kvJson d), ConfigFormat.json => Except.ok (jsonLoad d)
    | some (FileContent.kvYaml d), ConfigFormat.yaml => Except.ok (yamlLoad d)
    | some (FileContent.kvIni f), ConfigFormat.ini => Except.ok (iniLoad f)
    | some (FileContent.kvXml d), ConfigFormat.xml => Except.ok (xmlLoad d)
    | none, _ => Except.error "file does not exist"
    | some _, _ => Except.error "parse error"

/-! ## Initialization (`createServiceInstance`, config.go lines 87-142) -/

/-- The application name (`const appName = "lethean"`). -/
def appName : String := "lethean"

/-- The settings file name (`const configFileName = "config.json"`). -/
def configFileName : String := "config.json"

/-- The environment-resolution inputs of initialization: `os.UserHomeDir`,
`xdg.DataFile(appName)` and `xdg.CacheFile(appName)`, each of which can
fail. -/
structure GoEnv where
  homeDir : Except String String
  dataFile : Except String String
  cacheFile : Except String String

/-- The record built from the resolved environment before the load-or-create
branch (config.go lines 105-116): the per-application home under the user
home, the xdg paths, the three subdirectories, and the built-in defaults. -/
def defaultService (homeDir rootDir cacheDir : String) : Service :=
  let userHomeDir := goPathJoin homeDir appName
  let configDir := goPathJoin userHomeDir "config"
  { configPath := goPathJoin configDir configFileName
    userHomeDir := userHomeDir
    rootDir := rootDir
    cacheDir := cacheDir
    configDir := configDir
    dataDir := goPathJoin userHomeDir "data"
    workspaceDir := goPathJoin userHomeDir "workspace"
    defaultRoute := "/"
    features := []
    language := "en" }

/-- The `MkdirAll` loop of `createServiceInstance` (config.go lines
118-123), over `dirs := [RootDir, ConfigDir, DataDir, CacheDir,
WorkspaceDir, UserHomeDir]` in source order. -/
def initDirs (s : Service) (sys : Sys) : Sys :=
  [s.rootDir, s.configDir, s.dataDir, s.cacheDir, s.workspaceDir, s.userHomeDir].foldl
    mkdirAll sys

/-- The load-or-create branch of `createServiceInstance` (config.go lines
125-139), after the directories exist: decode an existing settings file
into the record (a decode failure is fatal) or persist the defaults (a
write failure is fatal).  Reads of an existing file succeed in the model,
so the source's third branch (a read error other than non-existence) is out
of scope; no claim under verification exercises it. -/
def initLoadOrCreate (s : Service) (sys : Sys) : Except String (Service × Sys) :=
  match fsGet (initDirs s sys).files s.configPath with
  | some content =>
    match jsonUnmarshalWith serviceDecode content s with
    | Except.ok s' => Except.ok (s', initDirs s sys)
    | Except.error e => Except.error ("failed to unmarshal config: " ++ e)
  | none =>
    match s.save (initDirs s sys) with
    | Except.ok sys₂ => Except.ok (s, sys₂)
    | Except.error e => Except.error ("failed to create default config file: " ++ e)

/-- `createServiceInstance`: resolve the environment (each failure fatal
with its wrapped message), build the default record, then create the
directories and run the load-or-create branch. -/
def createServiceInstance (env : GoEnv) (sys : Sys) : Except String (Service × Sys) :=
  match env.homeDir with
  | Except.error e => Except.error ("could not resolve user home directory: " ++ e)
  | Except.ok homeDir =>
    match env.dataFile with
    | Except.error e => Except.error ("could not resolve data directory: " ++ e)
    | Except.ok rootDir =>
      match env.cacheFile with
      | Except.error e => Except.error ("could not resolve cache directory: " ++ e)
      | Except.ok cacheDir =>
        initLoadOrCreate (defaultService homeDir rootDir cacheDir) sys

/-! ## Helper lemmas about the service model -/

lemma fieldSpec_set_get (fl : FieldSpec) (hmem : fl ∈ serviceFields)
    (s s' : Service) (v : SettingsValue) (hset : fl.set s v = some s') :
    fl.get s' = v := by
  simp only [serviceFields, List.mem_cons, List.not_mem_nil, or_false] at hmem
  rcases hmem with rfl | rfl | rfl | rfl | rfl | rfl | rfl | rfl | rfl | rfl <;> cases v <;>
    simp at hset <;> subst hset <;> rfl

lemma mkdirAll_files (sys : Sys) (d : String) : (mkdirAll sys d).files = sys.files := by
  unfold mkdirAll
  split <;> rfl

lemma mkdirAll_writeDenied (sys : Sys) (d : String) :
    (mkdirAll sys d).writeDenied = sys.writeDenied := by
  unfold mkdirAll
  split <;> rfl

lemma foldl_mkdirAll_files (l : List String) (sys : Sys) :
    (l.foldl mkdirAll sys).files = sys.files := by
  induction l generalizing sys with
  | nil => rfl
  | cons d rest ih => rw [List.foldl_cons, ih, mkdirAll_files]

lemma foldl_mkdirAll_writeDenied (l : List String) (sys : Sys) :
    (l.foldl mkdirAll sys).writeDenied = sys.writeDenied := by
  induction l generalizing sys with
  | nil => rfl
  | cons d rest ih => rw [List.foldl_cons, ih, mkdirAll_writeDenied]

lemma mkdirAll_of_mem (sys : Sys) (d : String) (h : d ∈ sys.dirs) : mkdirAll sys d = sys := by
  unfold mkdirAll
  rw [if_pos]
  exact List.elem_eq_true_of_mem h

lemma mem_mkdirAll_self (sys : Sys) (d : String) : d ∈ (mkdirAll sys d).dirs := by
  unfold mkdirAll
  split
  · next hc => exact List.mem_of_elem_eq_true hc
  · simp

lemma mem_mkdirAll_of_mem (sys : Sys) (a d : String) (h : d ∈ sys.dirs) :
    d ∈ (mkdirAll sys a).dirs := by
  unfold mkdirAll
  split
  · exact h
  · simp [h]

lemma mem_dirs_foldl (l : List String) (sys : Sys) (d : String) (h : d ∈ l ∨ d ∈ sys.dirs) :
    d ∈ (l.foldl mkdirAll sys).dirs := by
  induction l generalizing sys with
  | nil =>
    rcases h with h | h
    · exact absurd h (List.not_mem_nil d)
    · exact h
  | cons a rest ih =>
    rw [List.foldl_cons]
    rcases h with h | h
    · rcases List.mem_cons.mp h with rfl | hrest
      · exact ih (mkdirAll sys d) (Or.inr (mem_mkdirAll_self sys d))
      · exact ih (mkdirAll sys a) (Or.inl hrest)
    · exact ih (mkdirAll sys a) (Or.inr (mem_mkdirAll_of_mem sys a d h))

lemma foldl_mkdirAll_of_all_mem (l : List String) (sys : Sys) (h : ∀ d ∈ l, d ∈ sys.dirs) :
    l.foldl mkdirAll sys = sys := by
  induction l with
  | nil => rfl
  | cons a rest ih =>
    rw [List.foldl_cons, mkdirAll_of_mem sys a (h a (by simp))]
    exact ih (fun d hd => h d (by simp [hd]))

lemma fsGet_fsPut_self (files : List (String × FileContent)) (p : String) (c : FileContent) :
    fsGet (fsPut files p c) p = some c := by
  induction files with
  | nil => simp [fsPut, fsGet]
  | cons qc rest ih =>
    obtain ⟨q, d⟩ := qc
    by_cases h : q = p
    · simp [fsPut, fsGet, h]
    · simp [fsPut, fsGet, h, ih]

lemma decodeFields_append (l₁ l₂ : List (String × DynVal)) (s : Service) :
    decodeFields (l₁ ++ l₂) s
      = (decodeFields l₁ s) >>= (fun s' => decodeFields l₂ s') := by
  induction l₁ generalizing s with
  | nil => rfl
  | cons kv rest ih =>
    show decodeFields (kv :: (rest ++ l₂)) s = _
    unfold decodeFields at ih ⊢
    rw [List.foldlM_cons, List.foldlM_cons]
    cases hstep : serviceDecodeField s kv.1 kv.2 with
    | error e => rfl
    | ok s₁ => exact ih s₁

lemma strsOfDyn_map (l : List String) : strsOfDyn (l.map DynVal.str) = Except.ok l := by
  induction l with
  | nil => rfl
  | cons x rest ih =>
    unfold strsOfDyn at ih ⊢
    rw [List.map_cons, List.mapM_cons, ih]
    rfl

lemma decodeFields_tail (s : Service) :
    decodeFields [("default_route", DynVal.str s.defaultRoute),
      ("features", DynVal.arr (s.features.map DynVal.str)),
      ("language", DynVal.str s.language)] s = Except.ok s := by
  show (serviceDecodeField s "default_route" (DynVal.str s.defaultRoute)
      >>= fun s₁ => decodeFields [("features", DynVal.arr (s.features.map DynVal.str)),
        ("language", DynVal.str s.language)] s₁) = Except.ok s
  rw [show serviceDecodeField s "default_route" (DynVal.str s.defaultRoute)
      = Except.ok s from rfl]
  show (serviceDecodeField s "features" (DynVal.arr (s.features.map DynVal.str))
      >>= fun s₁ => decodeFields [("language", DynVal.str s.language)] s₁) = Except.ok s
  have hfeat : serviceDecodeField s "features" (DynVal.arr (s.features.map DynVal.str))
      = Except.ok s := by
    show (match strsOfDyn (s.features.map DynVal.str) with
      | Except.ok xs => Except.ok { s with features := xs }
      | Except.error e => Except.error e) = Except.ok s
    rw [strsOfDyn_map]
  rw [hfeat]
  rfl

lemma serviceDecode_marshalService (s : Service) :
    serviceDecode (marshalService s) s = Except.ok s := by
  have step : ∀ (seg rest : List (String × DynVal)),
      decodeFields seg s = Except.ok s → decodeFields rest s = Except.ok s →
      decodeFields (seg ++ rest) s = Except.ok s := by
    intro seg rest h1 h2
    rw [decodeFields_append, h1]
    exact h2
  show decodeFields (optStrField "configPath" s.configPath
      ++ (optStrField "userHomeDir" s.userHomeDir
      ++ (optStrField "rootDir" s.rootDir
      ++ (optStrField "cacheDir" s.cacheDir
      ++ (optStrField "configDir" s.configDir
      ++ (optStrField "dataDir" s.dataDir
      ++ (optStrField "workspaceDir" s.workspaceDir
      ++ [("default_route", DynVal.str s.defaultRoute),
          ("features", DynVal.arr (s.features.map DynVal.str)),
          ("language", DynVal.str s.language)]))))))) s = Except.ok s
  refine step _ _ ?_ (step _ _ ?_ (step _ _ ?_ (step _ _ ?_ (step _ _ ?_
    (step _ _ ?_ (step _ _ ?_ (decodeFields_tail s)))))))
  · unfold optStrField
    split <;> rfl
  · unfold optStrField
    split <;> rfl
  · unfold optStrField
    split <;> rfl
  · unfold optStrField
    split <;> rfl
  · unfold optStrField
    split <;> rfl
  · unfold optStrField
    split <;> rfl
  · unfold optStrField
    split <;> rfl

lemma setField_get (s s' : Service) (key : String) (v : SettingsValue)
    (hset : s.setField key v = Except.ok s') :
    Service.get s' key v.vtype = Except.ok v := by
  unfold Service.setField at hset
  split at hset
  · next fl hff =>
    split at hset
    · next s₂ hfs =>
      have h2 : s₂ = s' := by simpa using hset
      subst h2
      have hget := fieldSpec_set_get fl (List.mem_of_find?_eq_some hff) s s₂ v hfs
      unfold Service.get
      rw [hff]
      show (if (fl.get s₂).vtype = v.vtype then Except.ok (fl.get s₂)
        else Except.error ("cannot assign config value of type " ++ (fl.get s₂).vtype.goName
          ++ " to output of type " ++ v.vtype.goName)) = Except.ok v
      rw [hget]
      simp
    · exact absurd hset (by simp)
  · exact absurd hset (by simp)

/-- C2: for every logical key bound to a field and every value whose type
is assignable to that field, a successful `Set(key, v)` followed by
`Get(key, out)` — with the output slot of the written field's type — yields
exactly `v`. -/
theorem c2_set_then_get (s : Service) (sys : Sys) (key : String) (v : SettingsValue)
    (u : Unit) (s' : Service) (sys' : Sys)
    (h : Service.set s sys key v = (Except.ok u, s', sys')) :
    Service.get s' key v.vtype = Except.ok v := by
  unfold Service.set Service.setWith at h
  split at h
  · exact absurd h (by simp)
  · next s₁ heq =>
    split at h
    · next sys₁ hsv =>
      have h2 : s₁ = s' := by
        have h3 := congrArg (fun t => t.2.1) h
        simpa using h3
      subst h2
      exact setField_get s s₁ key v heq
    · exact absurd h (by simp)

/-- C2 witness: on a concrete store, `Set("language", "fr")` persists and a
subsequent `Get` returns `"fr"`. -/
theorem c2_witness :
    Service.get { defaultService "/h" "/d" "/c" with language := "fr" } "language"
        (SettingsValue.str "fr").vtype
      = Except.ok (SettingsValue.str "fr") :=
  c2_set_then_get (defaultService "/h" "/d" "/c") ⟨[], [], []⟩ "language"
    (SettingsValue.str "fr") () { defaultService "/h" "/d" "/c" with language := "fr" }
    ⟨[("/h/lethean/config/config.json",
        FileContent.doc (marshalService { defaultService "/h" "/d" "/c" with language := "fr" }))],
      [], []⟩
    rfl

/-- C9: `Set` is atomic on pre-persist errors.  When the field lookup or
the assignability check fails — `setField` returns an error — `Set` returns
exactly that error with the in-memory record and the file system unchanged,
and this holds for every possible persistence function, i.e. `Save` is
never invoked. -/
theorem c9_prepersist_atomic (s : Service) (sys : Sys) (key : String) (v : SettingsValue)
    (e : String) (herr : s.setField key v = Except.error e) :
    ∀ saveFn, Service.setWith saveFn s sys key v = (Except.error e, s, sys) := by
  intro saveFn
  unfold Service.setWith
  rw [herr]

/-- C9 witness: an unbound key and a type-mismatched value, each rejected
with the record and file system untouched even under the real `Save`. -/
theorem c9_witness :
    Service.setWith Service.save (defaultService "/h" "/d" "/c") ⟨[], [], []⟩
        "nonexistent" (SettingsValue.str "x")
      = (Except.error "key 'nonexistent' not found in config",
          defaultService "/h" "/d" "/c", ⟨[], [], []⟩)
    ∧ Service.setWith Service.save (defaultService "/h" "/d" "/c") ⟨[], [], []⟩
        "language" (SettingsValue.strList [])
      = (Except.error "type mismatch for key 'language': expected string, got []string",
          defaultService "/h" "/d" "/c", ⟨[], [], []⟩) :=
  ⟨c9_prepersist_atomic (defaultService "/h" "/d" "/c") ⟨[], [], []⟩ "nonexistent"
      (SettingsValue.str "x") "key 'nonexistent' not found in config" rfl Service.save,
   c9_prepersist_atomic (defaultService "/h" "/d" "/c") ⟨[], [], []⟩ "language"
      (SettingsValue.strList [])
      "type mismatch for key 'language': expected string, got []string" rfl Service.save⟩

/-- C5: when the field lookup and type check succeed but the subsequent
`Save` fails, `Set` returns the failure, the in-memory field retains the
new value (reading the key back yields `v`), and the file system — hence
the on-disk file — is unchanged. -/
theorem c5_save_failure (s : Service) (sys : Sys) (key : String) (v : SettingsValue)
    (s' : Service) (e : String)
    (hset : s.setField key v = Except.ok s')
    (hfail : Service.save s' sys = Except.error e) :
    Service.set s sys key v = (Except.error e, s', sys)
    ∧ Service.get s' key v.vtype = Except.ok v := by
  constructor
  · unfold Service.set Service.setWith
    rw [hset]
    show (match Service.save s' sys with
      | Except.ok sys' => (Except.ok (), s', sys')
      | Except.error e => (Except.error e, s', sys)) = (Except.error e, s', sys)
    rw [hfail]
  · exact setField_get s s' key v hset

/-- C5 witness: with the settings path write-denied, `Set("language", "de")`
reports the wrapped write failure, the record keeps `"de"`, and the file
system is unchanged. -/
theorem c5_witness :
    Service.set (defaultService "/h" "/d" "/c")
        ⟨[], [], ["/h/lethean/config/config.json"]⟩ "language" (SettingsValue.str "de")
      = (Except.error "failed to write config file: permission denied",
          { defaultService "/h" "/d" "/c" with language := "de" },
          ⟨[], [], ["/h/lethean/config/config.json"]⟩)
    ∧ Service.get { defaultService "/h" "/d" "/c" with language := "de" } "language"
        (SettingsValue.str "de").vtype
      = Except.ok (SettingsValue.str "de") :=
  c5_save_failure (defaultService "/h" "/d" "/c")
    ⟨[], [], ["/h/lethean/config/config.json"]⟩ "language" (SettingsValue.str "de")
    { defaultService "/h" "/d" "/c" with language := "de" }
    "failed to write config file: permission denied" rfl rfl

/-- C6: `LoadStruct` on a name whose file does not exist returns success
and leaves the output untouched, for every target type and every prior
output value. -/
theorem c6_absent_noop {α : Type} (dec : DynVal → α → Except String α) (s : Service)
    (sys : Sys) (key : String) (out : α)
    (habsent : fsGet sys.files (s.structPath key) = none) :
    Service.loadStruct dec s sys key out = Except.ok out := by
  unfold Service.loadStruct
  rw [habsent]

/-- The auxiliary struct type the repository's own tests persist:
`CustomConfig{APIKey string; Timeout int}`. -/
structure CustomConfig where
  apiKey : String
  timeout : Int
  deriving DecidableEq

/-- `json.Unmarshal` into a `*CustomConfig`: a `null` document or member is
a no-op, an object merges member-wise (unknown members ignored, mismatched
member types fail), any other document fails. -/
def customConfigDecode (v : DynVal) (c : CustomConfig) : Except String CustomConfig :=
  match v with
  | DynVal.null => Except.ok c
  | DynVal.obj fields =>
    fields.foldlM (fun acc kv =>
      if kv.1 = "apiKey" then
        match kv.2 with
        | DynVal.str x => Except.ok { acc with apiKey := x }
        | DynVal.null => Except.ok acc
        | _ => Except.error "json: cannot unmarshal value into Go value of type string"
      else if kv.1 = "timeout" then
        match kv.2 with
        | DynVal.num n => Except.ok { acc with timeout := n }
        | DynVal.null => Except.ok acc
        | _ => Except.error "json: cannot unmarshal value into Go value of type int"
      else Except.ok acc) c
  | _ => Except.error "json: cannot unmarshal value into Go value of type config.CustomConfig"

/-- C4 (amended): `LoadStruct` on a file holding the literal `null`
document returns success and leaves the output value unchanged — so an
output that was at its zero value stays at its zero value, but a non-zero
prior value is kept, not zeroed. -/
theorem c4_null_noop {α : Type} (dec : DynVal → α → Except String α) (s : Service)
    (sys : Sys) (key : String) (out : α)
    (hnull : fsGet sys.files (s.structPath key) = some (FileContent.doc DynVal.null)) :
    Service.loadStruct dec s sys key out = Except.ok out := by
  unfold Service.loadStruct
  rw [hnull]
  rfl

/-- C4 counterexample: `LoadStruct` of a `null` file into an output that
holds a non-zero prior value returns that prior value unchanged — not the
zero value the claim requires for "every prior content of out". -/
theorem c4_counterexample :
    Service.loadStruct customConfigDecode (defaultService "/h" "/d" "/c")
        ⟨[("/h/lethean/config/nil-value.json", FileContent.doc DynVal.null)], [], []⟩
        "nil-value" { apiKey := "old", timeout := 7 }
      = Except.ok { apiKey := "old", timeout := 7 }
    ∧ ({ apiKey := "old", timeout := 7 } : CustomConfig) ≠ { apiKey := "", timeout := 0 } :=
  ⟨rfl, by decide⟩

/-- C4 witness: a zero-valued output stays zero-valued on a `null` file. -/
theorem c4_witness :
    Service.loadStruct customConfigDecode (defaultService "/h" "/d" "/c")
        ⟨[("/h/lethean/config/prefs.json", FileContent.doc DynVal.null)], [], []⟩
        "prefs" { apiKey := "", timeout := 0 }
      = Except.ok { apiKey := "", timeout := 0 } :=
  c4_null_noop customConfigDecode (defaultService "/h" "/d" "/c")
    ⟨[("/h/lethean/config/prefs.json", FileContent.doc DynVal.null)], [], []⟩
    "prefs" { apiKey := "", timeout := 0 } rfl

/-- C6 witness: loading a never-saved name from an empty file system keeps
the zero-valued output and succeeds. -/
theorem c6_witness :
    Service.loadStruct customConfigDecode (defaultService "/h" "/d" "/c") ⟨[], [], []⟩
        "non-existent" { apiKey := "", timeout := 0 }
      = Except.ok { apiKey := "", timeout := 0 } :=
  c6_absent_noop customConfigDecode (defaultService "/h" "/d" "/c") ⟨[], [], []⟩
    "non-existent" { apiKey := "", timeout := 0 } rfl

lemma createServiceInstance_ok_env (env : GoEnv) (sys : Sys) (h r c : String)
    (hh : env.homeDir = Except.ok h) (hd : env.dataFile = Except.ok r)
    (hc : env.cacheFile = Except.ok c) :
    createServiceInstance env sys = initLoadOrCreate (defaultService h r c) sys := by
  unfold createServiceInstance
  rw [hh, hd, hc]

/-- C7: if the settings file exists but is empty, initialization fails with
the wrapped decode error — it does not succeed with the built-in
defaults. -/
theorem c7_empty_settings_fatal (env : GoEnv) (sys : Sys) (h r c : String)
    (hh : env.homeDir = Except.ok h) (hd : env.dataFile = Except.ok r)
    (hc : env.cacheFile = Except.ok c)
    (hfile : fsGet sys.files (defaultService h r c).configPath
      = some FileContent.emptyFile) :
    createServiceInstance env sys
      = Except.error "failed to unmarshal config: unexpected end of JSON input" := by
  rw [createServiceInstance_ok_env env sys h r c hh hd hc]
  unfold initLoadOrCreate
  have h1 : fsGet (initDirs (defaultService h r c) sys).files
      (defaultService h r c).configPath = some FileContent.emptyFile := by
    unfold initDirs
    rw [foldl_mkdirAll_files]
    exact hfile
  rw [h1]
  rfl

/-- C7 witness: an environment whose settings file holds zero bytes. -/
theorem c7_witness :
    createServiceInstance ⟨Except.ok "/h", Except.ok "/d", Except.ok "/c"⟩
        ⟨[("/h/lethean/config/config.json", FileContent.emptyFile)], [], []⟩
      = Except.error "failed to unmarshal config: unexpected end of JSON input" :=
  c7_empty_settings_fatal ⟨Except.ok "/h", Except.ok "/d", Except.ok "/c"⟩
    ⟨[("/h/lethean/config/config.json", FileContent.emptyFile)], [], []⟩
    "/h" "/d" "/c" rfl rfl rfl rfl

/-- C8: initializing twice against the same initially empty environment is
idempotent.  With the environment resolving and no settings file present,
the first initialization returns the built-in default record and writes it
to the settings file; the second initialization, run on the state the first
one produced, decodes that file and returns the very same record and
state. -/
theorem c8_init_idempotent (env : GoEnv) (sys : Sys) (h r c : String) (s₁ : Service)
    (sys₁ : Sys)
    (hh : env.homeDir = Except.ok h) (hd : env.dataFile = Except.ok r)
    (hc : env.cacheFile = Except.ok c)
    (hnofile : fsGet sys.files (defaultService h r c).configPath = none)
    (hfirst : createServiceInstance env sys = Except.ok (s₁, sys₁)) :
    s₁ = defaultService h r c
    ∧ fsGet sys₁.files s₁.configPath = some (FileContent.doc (marshalService s₁))
    ∧ createServiceInstance env sys₁ = Except.ok (s₁, sys₁) := by
  set s0 := defaultService h r c with hs0
  rw [createServiceInstance_ok_env env sys h r c hh hd hc] at hfirst
  unfold initLoadOrCreate at hfirst
  have h0 : fsGet (initDirs s0 sys).files s0.configPath = none := by
    unfold initDirs
    rw [foldl_mkdirAll_files]
    exact hnofile
  rw [h0] at hfirst
  unfold Service.save fsWriteFile at hfirst
  by_cases hdeny : (initDirs s0 sys).writeDenied.contains s0.configPath = true
  · rw [if_pos hdeny] at hfirst
    exact absurd hfirst (by simp)
  · rw [if_neg hdeny] at hfirst
    have hfirst' : (Except.ok (s0,
        ({ initDirs s0 sys with
            files := fsPut (initDirs s0 sys).files s0.configPath
              (FileContent.doc (marshalService s0)) } : Sys))
        : Except String (Service × Sys)) = Except.ok (s₁, sys₁) := hfirst
    rw [Except.ok.injEq, Prod.mk.injEq] at hfirst'
    obtain ⟨hs₁, hsys₁⟩ := hfirst'
    subst hs₁
    subst hsys₁
    refine ⟨rfl, ?_, ?_⟩
    · exact fsGet_fsPut_self _ _ _
    · rw [createServiceInstance_ok_env env _ h r c hh hd hc]
      unfold initLoadOrCreate
      have hinit2 : initDirs s0
          ({ initDirs s0 sys with
              files := fsPut (initDirs s0 sys).files s0.configPath
                (FileContent.doc (marshalService s0)) } : Sys)
          = { initDirs s0 sys with
              files := fsPut (initDirs s0 sys).files s0.configPath
                (FileContent.doc (marshalService s0)) } := by
        unfold initDirs
        refine foldl_mkdirAll_of_all_mem _ _ (fun d hd' => ?_)
        show d ∈ (initDirs s0 sys).dirs
        unfold initDirs
        exact mem_dirs_foldl _ sys d (Or.inl hd')
      rw [hinit2]
      have h2 : fsGet ({ initDirs s0 sys with
          files := fsPut (initDirs s0 sys).files s0.configPath
            (FileContent.doc (marshalService s0)) } : Sys).files s0.configPath
          = some (FileContent.doc (marshalService s0)) :=
        fsGet_fsPut_self _ _ _
      rw [h2]
      have h3 : jsonUnmarshalWith serviceDecode (FileContent.doc (marshalService s0)) s0
          = Except.ok s0 := serviceDecode_marshalService s0
      simp [h3]

/-- C8 witness: a concrete empty environment, initialized twice. -/
theorem c8_witness :
    defaultService "/h" "/d" "/c" = defaultService "/h" "/d" "/c"
    ∧ fsGet (Sys.mk
        [("/h/lethean/config/config.json",
          FileContent.doc (marshalService (defaultService "/h" "/d" "/c")))]
        ["/d", "/h/lethean/config", "/h/lethean/data", "/c", "/h/lethean/workspace",
          "/h/lethean"] []).files (defaultService "/h" "/d" "/c").configPath
      = some (FileContent.doc (marshalService (defaultService "/h" "/d" "/c")))
    ∧ createServiceInstance ⟨Except.ok "/h", Except.ok "/d", Except.ok "/c"⟩
        (Sys.mk
          [("/h/lethean/config/config.json",
            FileContent.doc (marshalService (defaultService "/h" "/d" "/c")))]
          ["/d", "/h/lethean/config", "/h/lethean/data", "/c", "/h/lethean/workspace",
            "/h/lethean"] [])
      = Except.ok (defaultService "/h" "/d" "/c",
          Sys.mk
            [("/h/lethean/config/config.json",
              FileContent.doc (marshalService (defaultService "/h" "/d" "/c")))]
            ["/d", "/h/lethean/config", "/h/lethean/data", "/c", "/h/lethean/workspace",
              "/h/lethean"] []) :=
  c8_init_idempotent ⟨Except.ok "/h", Except.ok "/d", Except.ok "/c"⟩ ⟨[], [], []⟩
    "/h" "/d" "/c" (defaultService "/h" "/d" "/c")
    (Sys.mk
      [("/h/lethean/config/config.json",
        FileContent.doc (marshalService (defaultService "/h" "/d" "/c")))]
      ["/d", "/h/lethean/config", "/h/lethean/data", "/c", "/h/lethean/workspace",
        "/h/lethean"] [])
    rfl rfl rfl rfl rfl

lemma find?_isSome_eq_any {α : Type} (p : α → Bool) (l : List α) :
    (l.find? p).isSome = l.any p := by
  induction l with
  | nil => rfl
  | cons a rest ih =>
    cases hpa : p a <;> simp [List.find?_cons, hpa, ih, List.any_cons]

/-- C10: the logical keys accepted by `Get`/`Set` are exactly the json tags
of the ten serialized fields, compared case-insensitively; every
directory-path field is both readable and writable; and a successful
`Set("configDir", p)` redirects the paths used by the struct and key-value
operations to `p`. -/
theorem c10_logical_keys :
    (∀ key : String, (findField key).isSome
        = (["configPath", "userHomeDir", "rootDir", "cacheDir", "configDir", "dataDir",
            "workspaceDir", "default_route", "features", "language"].any
            (fun n => goEqualFold n key)))
    ∧ (∀ (s : Service) (x : String),
        Service.setField s "configPath" (SettingsValue.str x)
            = Except.ok { s with configPath := x }
        ∧ Service.setField s "userHomeDir" (SettingsValue.str x)
            = Except.ok { s with userHomeDir := x }
        ∧ Service.setField s "rootDir" (SettingsValue.str x)
            = Except.ok { s with rootDir := x }
        ∧ Service.setField s "cacheDir" (SettingsValue.str x)
            = Except.ok { s with cacheDir := x }
        ∧ Service.setField s "configDir" (SettingsValue.str x)
            = Except.ok { s with configDir := x }
        ∧ Service.setField s "dataDir" (SettingsValue.str x)
            = Except.ok { s with dataDir := x }
        ∧ Service.setField s "workspaceDir" (SettingsValue.str x)
            = Except.ok { s with workspaceDir := x }
        ∧ Service.setField s "default_route" (SettingsValue.str x)
            = Except.ok { s with defaultRoute := x }
        ∧ Service.setField s "language" (SettingsValue.str x)
            = Except.ok { s with language := x })
    ∧ (∀ (s : Service) (l : List String),
        Service.setField s "features" (SettingsValue.strList l)
          = Except.ok { s with features := l })
    ∧ (∀ s : Service,
        Service.get s "configPath" SettingsType.str = Except.ok (SettingsValue.str s.configPath)
        ∧ Service.get s "userHomeDir" SettingsType.str
            = Except.ok (SettingsValue.str s.userHomeDir)
        ∧ Service.get s "rootDir" SettingsType.str = Except.ok (SettingsValue.str s.rootDir)
        ∧ Service.get s "cacheDir" SettingsType.str = Except.ok (SettingsValue.str s.cacheDir)
        ∧ Service.get s "configDir" SettingsType.str = Except.ok (SettingsValue.str s.configDir)
        ∧ Service.get s "dataDir" SettingsType.str = Except.ok (SettingsValue.str s.dataDir)
        ∧ Service.get s "workspaceDir" SettingsType.str
            = Except.ok (SettingsValue.str s.workspaceDir)
        ∧ Service.get s "default_route" SettingsType.str
            = Except.ok (SettingsValue.str s.defaultRoute)
        ∧ Service.get s "features" SettingsType.strList
            = Except.ok (SettingsValue.strList s.features)
        ∧ Service.get s "language" SettingsType.str = Except.ok (SettingsValue.str s.language))
    ∧ (∀ (s : Service) (sys : Sys) (p : String) (u : Unit) (s' : Service) (sys' : Sys),
        Service.set s sys "configDir" (SettingsValue.str p) = (Except.ok u, s', sys') →
        s'.configDir = p
        ∧ (∀ name, s'.structPath name = goPathJoin p (name ++ ".json"))
        ∧ (∀ name, s'.kvPath name = goPathJoin p name)) := by
  refine ⟨?_, ?_, ?_, ?_, ?_⟩
  · intro key
    rw [findField, find?_isSome_eq_any]
    simp only [serviceFields, List.any_cons, List.any_nil]
  · intro s x
    exact ⟨rfl, rfl, rfl, rfl, rfl, rfl, rfl, rfl, rfl⟩
  · intro s l
    rfl
  · intro s
    exact ⟨rfl, rfl, rfl, rfl, rfl, rfl, rfl, rfl, rfl, rfl⟩
  · intro s sys p u s' sys' h
    have hsf : Service.setField s "configDir" (SettingsValue.str p)
        = Except.ok { s with configDir := p } := rfl
    unfold Service.set Service.setWith at h
    rw [hsf] at h
    have h' : (match Service.save { s with configDir := p } sys with
        | Except.ok sys₂ => (Except.ok (), ({ s with configDir := p } : Service), sys₂)
        | Except.error e => (Except.error e, ({ s with configDir := p } : Service), sys))
        = (Except.ok u, s', sys') := h
    cases hsv : Service.save { s with configDir := p } sys with
    | ok sys₂ =>
      rw [hsv] at h'
      have h2 : ({ s with configDir := p } : Service) = s' := by
        have h3 := congrArg (fun t => t.2.1) h'
        simpa using h3
      subst h2
      exact ⟨rfl, fun name => rfl, fun name => rfl⟩
    | error e =>
      rw [hsv] at h'
      exact absurd h' (by simp)

/-- C10 witness: concrete instances of each part — the key set at
`"configDir"`, a directory-field write and read on a concrete record, and
a successful `Set("configDir", "/alt")` redirecting `structPath` and
`kvPath`. -/
theorem c10_witness :
    (findField "configDir").isSome
      = (["configPath", "userHomeDir", "rootDir", "cacheDir", "configDir", "dataDir",
          "workspaceDir", "default_route", "features", "language"].any
          (fun n => goEqualFold n "configDir"))
    ∧ Service.setField (defaultService "/h" "/d" "/c") "configDir" (SettingsValue.str "/alt")
        = Except.ok { defaultService "/h" "/d" "/c" with configDir := "/alt" }
    ∧ Service.setField (defaultService "/h" "/d" "/c") "features"
          (SettingsValue.strList ["f1"])
        = Except.ok { defaultService "/h" "/d" "/c" with features := ["f1"] }
    ∧ Service.get (defaultService "/h" "/d" "/c") "configDir" SettingsType.str
        = Except.ok (SettingsValue.str (defaultService "/h" "/d" "/c").configDir)
    ∧ ({ defaultService "/h" "/d" "/c" with configDir := "/alt" } : Service).configDir = "/alt"
    ∧ (∀ name, ({ defaultService "/h" "/d" "/c" with configDir := "/alt" } : Service).structPath
        name = goPathJoin "/alt" (name ++ ".json"))
    ∧ (∀ name, ({ defaultService "/h" "/d" "/c" with configDir := "/alt" } : Service).kvPath name
        = goPathJoin "/alt" name) := by
  have hpart5 := c10_logical_keys.2.2.2.2 (defaultService "/h" "/d" "/c") ⟨[], [], []⟩
    "/alt" () { defaultService "/h" "/d" "/c" with configDir := "/alt" }
    ⟨[("/h/lethean/config/config.json",
        FileContent.doc (marshalService
          { defaultService "/h" "/d" "/c" with configDir := "/alt" }))], [], []⟩
    rfl
  exact ⟨c10_logical_keys.1 "configDir",
    (c10_logical_keys.2.1 (defaultService "/h" "/d" "/c") "/alt").2.2.2.2.1,
    c10_logical_keys.2.2.1 (defaultService "/h" "/d" "/c") ["f1"],
    (c10_logical_keys.2.2.2.1 (defaultService "/h" "/d" "/c")).2.2.2.2.1,
    hpart5.1, hpart5.2.1, hpart5.2.2⟩

end Config
